import Mathlib

/-!
Verification of the market-breadth data-collection pipeline
(`data_collector.py`): ticker-universe resolution, per-symbol fetch
classification, the protected atomic store, and the coverage statistics.
The Python source is shallowly embedded: pandas series become lists of bar
records, filesystem state becomes an explicit `DiskState`, and I/O failure
points (network, parse, write) become explicit boolean/optional inputs.
-/

namespace MarketBreadth

/-- Configuration constant `config.HISTORY_TRADING_DAYS`. -/
def HISTORY_TRADING_DAYS : ℕ := 500

/-- One daily bar of a price series: a date (encoded as an integer day
number) plus the OHLCV payload. -/
structure Bar where
  date : Int
  openPrice : Int
  high : Int
  low : Int
  close : Int
  volume : Int
deriving DecidableEq, Repr

/-- A per-symbol price series: the ordered list of bar records, as stored
in one CSV file (pandas DataFrame indexed by date). -/
abbrev Series := List Bar

/-- Embedding of `data.index[0]` of the embedded series (default 0 when empty; the
Python code raises there, which is handled at each use site). -/
def firstDate (s : Series) : Int := ((s.head?).map Bar.date).getD 0

/-- Embedding of `data.index[-1]` of the embedded series. -/
def lastDate (s : Series) : Int := ((s.getLast?).map Bar.date).getD 0

/-- State of the final per-symbol CSV file: absent, present but
unreadable/corrupt (`pd.read_csv` raises), or present with parseable
content. -/
inductive FileState where
  | absent
  | corrupt
  | content (s : Series)
deriving DecidableEq, Repr

/-- Filesystem state relevant to one symbol: the final CSV path and
whether the `.tmp` sibling currently exists. -/
structure DiskState where
  final : FileState
  tempExists : Bool
deriving DecidableEq, Repr

/-- Decision phase of `save_ticker_data` (src/data_collector.py lines
166-208): with no existing file, or an unreadable one, accept; otherwise
read the old series and apply the three rejection guards in order
(regression on the last date, window shift on the first date, shrinkage of
more than 10 rows).  An empty old or new series makes `.index[0]` /
`.index[-1]` raise inside the inner `try`, which the code treats like an
unreadable old file: accept. -/
def acceptsUpdate (file : FileState) (data : Series) : Bool :=
  match file with
  | .absent => true
  | .corrupt => true
  | .content old =>
    match data.head?, data.getLast?, old.head?, old.getLast? with
    | some nf, some nl, some of, some ol =>
      if nl.date < ol.date then false
      else if nf.date > of.date then false
      else if (data.length : Int) < (old.length : Int) - 10 then false
      else true
    | _, _, _, _ => true

/-- Embedding of `save_ticker_data(ticker, data)` (src/data_collector.py lines
156-226).  `writeOk` injects the outcome of the write attempt
(`data.to_csv(temp_path)` / `temp_path.replace(filepath)`): on success the
temp file is atomically renamed over the final path; on failure the temp
artifact is unlinked and the outer handler returns "error", leaving the
final path untouched.  A rejected update returns "protected" before any
write is attempted. -/
def save_ticker_data (disk : DiskState) (data : Series) (writeOk : Bool) :
    String × DiskState :=
  if acceptsUpdate disk.final data then
    if writeOk then ("saved", ⟨.content data, false⟩)
    else ("error", ⟨disk.final, false⟩)
  else ("protected", disk)

/-- A sequence of refresh attempts against one symbol's file, as performed
by successive runs: each attempt supplies the freshly fetched series and
whether its write would succeed. -/
def runUpdates (disk : DiskState) (updates : List (Series × Bool)) : DiskState :=
  updates.foldl (fun st u => (save_ticker_data st u.1 u.2).2) disk

/-- Embedding of `sanitize_ticker(ticker)` (src/data_collector.py lines 38-40): the
public symbol spelling mapped to the feed form, every dot replaced by a
hyphen. -/
def sanitize_ticker (t : String) : String :=
  ⟨t.data.map (fun c => if c = '.' then '-' else c)⟩

/-- Raw response of the upstream feed for one symbol: either the network
or parse layer raised, or it returned a (possibly empty) table of rows. -/
inductive FetchRaw where
  | err
  | rows (s : Series)
deriving DecidableEq, Repr

/-- Embedding of `download_ticker_data(ticker, start_date)` (src/data_collector.py
lines 129-153): a raised exception maps to `None`; an empty table maps to
`None`; a table shorter than 80% of the configured history length maps to
`None`; otherwise the data is returned. -/
def download_ticker_data (raw : FetchRaw) : Option Series :=
  match raw with
  | .err => none
  | .rows data =>
    if data.isEmpty then none
    else if (data.length : ℚ) < (HISTORY_TRADING_DAYS : ℚ) * 0.8 then none
    else some data

/-- The run statistics dictionary built by `download_all_tickers`
(src/data_collector.py lines 233-239). -/
structure Stats where
  total : ℕ
  success : ℕ
  protected_ : ℕ
  failed : ℕ
  empty : ℕ
deriving DecidableEq, Repr

/-- The external circumstances of one symbol's processing in a run: what
the feed returns for it, the state of its CSV file, and whether a write
to its file would succeed. -/
structure SymWorld where
  raw : FetchRaw
  disk : DiskState
  writeOk : Bool
deriving DecidableEq, Repr

/-- Loop body of `download_all_tickers` (src/data_collector.py lines
252-267): fetch, then — exactly as the Python `if/elif/else` chain reads —
save and tally the result when the data is non-`None` and non-empty, tally
`empty` when non-`None` but empty, and tally `failed` when `None`. -/
def tallyOne (stats : Stats) (w : SymWorld) : Stats :=
  match download_ticker_data w.raw with
  | some data =>
    if data.isEmpty = false then
      let result := (save_ticker_data w.disk data w.writeOk).1
      if result = "saved" then { stats with success := stats.success + 1 }
      else if result = "protected" then { stats with protected_ := stats.protected_ + 1 }
      else if result = "error" then { stats with failed := stats.failed + 1 }
      else stats
    else { stats with empty := stats.empty + 1 }
  | none => { stats with failed := stats.failed + 1 }

/-- Embedding of `download_all_tickers(tickers)` (src/data_collector.py lines 229-285),
with one `SymWorld` per ticker in universe order: initialize the counters
with `total = len(tickers)` and fold the per-symbol classification. -/
def download_all_tickers (worlds : List SymWorld) : Stats :=
  worlds.foldl tallyOne ⟨worlds.length, 0, 0, 0, 0⟩

/-- Embedding of `effective_ok` of `run_data_collection` (src/data_collector.py line
300). -/
def effective_ok (stats : Stats) : ℕ := stats.success + stats.protected_

/-- Embedding of `coverage_pct` of `run_data_collection` (src/data_collector.py line
301): guarded against a zero total. -/
def coverage_pct (stats : Stats) : ℚ :=
  if stats.total > 0 then (effective_ok stats : ℚ) / (stats.total : ℚ) * 100 else 0

/-- Embedding of `fetch_sp500_tickers_from_wiki()` (src/data_collector.py lines
43-80): a raised network error maps to `None`; a page without the
constituents table maps to `None`; fewer than 400 extracted symbols maps
to `None`; otherwise the extracted list is returned.  `networkFail`,
`tableFound` and `rows` inject the remote response. -/
def fetch_sp500_tickers_from_wiki (networkFail : Bool) (tableFound : Bool)
    (rows : List String) : Option (List String) :=
  if networkFail then none
  else if !tableFound then none
  else if rows.length < 400 then none
  else some rows

/-- Embedding of `load_fallback_tickers()` (src/data_collector.py lines 83-98): a
missing or unreadable fallback CSV yields the empty list, otherwise the
cached ticker column.  `cache = none` models missing/unreadable. -/
def load_fallback_tickers (cache : Option (List String)) : List String :=
  match cache with
  | none => []
  | some l => l

/-- Embedding of `get_sp500_tickers()` (src/data_collector.py lines 111-126), returning
the resolved universe paired with the fallback cache state after the call.
A truthy remote result (non-`None`, non-empty) is saved to the cache and
returned; otherwise the fallback is read, and an empty fallback raises. -/
def get_sp500_tickers (remote : Option (List String))
    (cache : Option (List String)) :
    Except String (List String × Option (List String)) :=
  match remote with
  | some (t :: ts) => Except.ok (t :: ts, some (t :: ts))
  | _ =>
    match load_fallback_tickers cache with
    | [] => Except.error "Nelze ziskat seznam tickeru"
    | f :: fs => Except.ok (f :: fs, cache)

/-- A concrete bar dated on day `d`, with zeroed payload, for concrete
test instances. -/
def mkBar (d : Int) : Bar := ⟨d, 0, 0, 0, 0, 0⟩

/-- A concrete series of `n` consecutive daily bars dated `0, 1, ..., n-1`. -/
def mkSeries (n : ℕ) : Series := (List.range n).map (fun i : ℕ => mkBar i)

/-! ### Helper lemmas -/

lemma exists_head_of_ne_nil (s : Series) (h : s ≠ []) : ∃ b, s.head? = some b := by
  cases s with
  | nil => exact absurd rfl h
  | cons a l => exact ⟨a, rfl⟩

lemma exists_getLast_of_ne_nil (s : Series) (h : s ≠ []) : ∃ b, s.getLast? = some b := by
  cases s with
  | nil => exact absurd rfl h
  | cons a l =>
    exact ⟨(a :: l).getLast (by simp), List.getLast?_eq_getLast _ (by simp)⟩

lemma firstDate_eq_of_head (s : Series) (b : Bar) (h : s.head? = some b) :
    firstDate s = b.date := by
  simp [firstDate, h]

lemma lastDate_eq_of_getLast (s : Series) (b : Bar) (h : s.getLast? = some b) :
    lastDate s = b.date := by
  simp [lastDate, h]

/-- For a readable, non-empty old series and a non-empty new series, the
decision phase accepts exactly when all three guards pass. -/
lemma acceptsUpdate_content_iff (old data : Series) (h1 : old ≠ []) (h2 : data ≠ []) :
    acceptsUpdate (FileState.content old) data = true ↔
      lastDate old ≤ lastDate data ∧ firstDate data ≤ firstDate old ∧
        (old.length : Int) - 10 ≤ (data.length : Int) := by
  obtain ⟨nf, hnf⟩ := exists_head_of_ne_nil data h2
  obtain ⟨nl, hnl⟩ := exists_getLast_of_ne_nil data h2
  obtain ⟨hf, hhf⟩ := exists_head_of_ne_nil old h1
  obtain ⟨hl, hhl⟩ := exists_getLast_of_ne_nil old h1
  rw [firstDate_eq_of_head data nf hnf, firstDate_eq_of_head old hf hhf,
    lastDate_eq_of_getLast data nl hnl, lastDate_eq_of_getLast old hl hhl]
  simp only [acceptsUpdate, hnf, hnl, hhf, hhl]
  split_ifs with g1 g2 g3 <;> constructor <;> intro h <;> first
    | omega | simp_all

/-- Lemma: `save_ticker_data` returns exactly one of the three outcome strings. -/
lemma save_result_cases (disk : DiskState) (data : Series) (writeOk : Bool) :
    (save_ticker_data disk data writeOk).1 = "saved" ∨
      (save_ticker_data disk data writeOk).1 = "protected" ∨
      (save_ticker_data disk data writeOk).1 = "error" := by
  unfold save_ticker_data
  split_ifs <;> simp

/-- One accepted-or-rejected refresh against a readable non-empty series
keeps the file readable and non-empty, never moves the last date backward,
never moves the first date forward, and never loses more than 10 rows. -/
lemma save_step_mono (s data : Series) (tmp writeOk : Bool)
    (h1 : s ≠ []) (h2 : data ≠ []) :
    ∃ s2, ((save_ticker_data ⟨FileState.content s, tmp⟩ data writeOk).2).final =
        FileState.content s2 ∧ s2 ≠ [] ∧
      lastDate s ≤ lastDate s2 ∧ firstDate s2 ≤ firstDate s ∧
      (s.length : Int) - 10 ≤ (s2.length : Int) := by
  unfold save_ticker_data
  by_cases ha : acceptsUpdate (FileState.content s) data = true
  · obtain ⟨hlast, hfirst, hlen⟩ := (acceptsUpdate_content_iff s data h1 h2).mp ha
    cases writeOk with
    | true => exact ⟨data, by simp [ha], h2, hlast, hfirst, hlen⟩
    | false => exact ⟨s, by simp [ha], h1, le_refl _, le_refl _, by omega⟩
  · exact ⟨s, by simp [ha], h1, le_refl _, le_refl _, by omega⟩

/-- Any sequence of refreshes with non-empty fetched series, starting from
a readable non-empty persisted series, preserves readability and the date
monotonicity invariants. -/
lemma runUpdates_mono (s : Series) (tmp : Bool) (updates : List (Series × Bool))
    (h1 : s ≠ []) (h : ∀ u ∈ updates, u.1 ≠ []) :
    ∃ s2, (runUpdates ⟨FileState.content s, tmp⟩ updates).final = FileState.content s2 ∧
      s2 ≠ [] ∧ lastDate s ≤ lastDate s2 ∧ firstDate s2 ≤ firstDate s := by
  induction updates generalizing s tmp with
  | nil => exact ⟨s, rfl, h1, le_refl _, le_refl _⟩
  | cons u us ih =>
    obtain ⟨s1, hs1, hne1, hlast1, hfirst1, -⟩ :=
      save_step_mono s u.1 tmp u.2 h1 (h u (List.mem_cons_self u us))
    set st := (save_ticker_data ⟨FileState.content s, tmp⟩ u.1 u.2).2 with hst
    obtain ⟨s2, hs2, hne2, hlast2, hfirst2⟩ :=
      ih s1 st.tempExists hne1 (fun v hv => h v (List.mem_cons_of_mem u hv))
    refine ⟨s2, ?_, hne2, le_trans hlast1 hlast2, le_trans hfirst2 hfirst1⟩
    have hsteq : st = ⟨FileState.content s1, st.tempExists⟩ := by
      rw [show st = ⟨st.final, st.tempExists⟩ from rfl, hs1]
    calc (runUpdates ⟨FileState.content s, tmp⟩ (u :: us)).final
        = (runUpdates st us).final := by simp [runUpdates, hst]
      _ = (runUpdates ⟨FileState.content s1, st.tempExists⟩ us).final := by rw [← hsteq]
      _ = FileState.content s2 := hs2

/-- Sum of the four outcome counters of the statistics. -/
def countersSum (s : Stats) : ℕ := s.success + s.protected_ + s.empty + s.failed

lemma tallyOne_total (s : Stats) (w : SymWorld) : (tallyOne s w).total = s.total := by
  unfold tallyOne
  rcases download_ticker_data w.raw with - | data
  · rfl
  · dsimp only
    split_ifs <;> rfl

lemma tallyOne_sum (s : Stats) (w : SymWorld) :
    countersSum (tallyOne s w) = countersSum s + 1 := by
  unfold tallyOne
  rcases download_ticker_data w.raw with - | data
  · simp [countersSum]; omega
  · dsimp only
    by_cases he : data.isEmpty = false
    · rcases save_result_cases w.disk data w.writeOk with hr | hr | hr <;>
        simp [he, hr, countersSum] <;> omega
    · simp [he, countersSum]; omega

lemma foldl_tally (ws : List SymWorld) (s : Stats) :
    countersSum (ws.foldl tallyOne s) = countersSum s + ws.length ∧
      (ws.foldl tallyOne s).total = s.total := by
  induction ws generalizing s with
  | nil => simp
  | cons w ws ih =>
    simp only [List.foldl_cons, List.length_cons]
    obtain ⟨ih1, ih2⟩ := ih (tallyOne s w)
    rw [ih1, ih2, tallyOne_sum, tallyOne_total]
    omega

/-- The character substitution performed by `sanitize_ticker` is injective
on characters that are not hyphens. -/
lemma map_dot_char_inj (l1 l2 : List Char)
    (h1 : ∀ c ∈ l1, c ≠ '-') (h2 : ∀ c ∈ l2, c ≠ '-')
    (h : l1.map (fun c => if c = '.' then '-' else c) =
      l2.map (fun c => if c = '.' then '-' else c)) : l1 = l2 := by
  induction l1 generalizing l2 with
  | nil => cases l2 with
    | nil => rfl
    | cons b bs => simp at h
  | cons a as ih =>
    cases l2 with
    | nil => simp at h
    | cons b bs =>
      simp only [List.map_cons, List.cons.injEq] at h
      obtain ⟨hab, hrest⟩ := h
      have ha := h1 a (List.mem_cons_self a as)
      have hb := h2 b (List.mem_cons_self b bs)
      have head_eq : a = b := by
        by_cases hda : a = '.'
        · by_cases hdb : b = '.'
          · rw [hda, hdb]
          · rw [if_pos hda, if_neg hdb] at hab
            exact absurd hab.symm hb
        · by_cases hdb : b = '.'
          · rw [if_neg hda, if_pos hdb] at hab
            exact absurd hab ha
          · rwa [if_neg hda, if_neg hdb] at hab
      rw [head_eq, ih bs (fun c hc => h1 c (List.mem_cons_of_mem a hc))
        (fun c hc => h2 c (List.mem_cons_of_mem b hc)) hrest]

/-! ### Claim theorems -/

/-- Claim C1: for a symbol with an existing readable persisted series, a
refresh whose last date moves backward or whose first date moves forward
returns "protected" with the file untouched; hence across any sequence of
refreshes the persisted last date is non-decreasing and the persisted
first date is non-increasing. -/
theorem save_guards_monotone (old : Series) (tmp : Bool) (h1 : old ≠ []) :
    (∀ data writeOk, data ≠ [] →
      lastDate data < lastDate old ∨ firstDate old < firstDate data →
      save_ticker_data ⟨FileState.content old, tmp⟩ data writeOk =
        ("protected", ⟨FileState.content old, tmp⟩)) ∧
    (∀ updates : List (Series × Bool), (∀ u ∈ updates, u.1 ≠ []) →
      ∃ s2, (runUpdates ⟨FileState.content old, tmp⟩ updates).final =
          FileState.content s2 ∧
        lastDate old ≤ lastDate s2 ∧ firstDate s2 ≤ firstDate old) := by
  constructor
  · intro data writeOk h2 hguard
    cases hacc : acceptsUpdate (FileState.content old) data with
    | true =>
      obtain ⟨hl, hf, -⟩ := (acceptsUpdate_content_iff old data h1 h2).mp hacc
      rcases hguard with hg | hg <;> omega
    | false =>
      unfold save_ticker_data
      simp [hacc]
  · intro updates hupd
    obtain ⟨s2, hfin, -, hlast, hfirst⟩ := runUpdates_mono old tmp updates h1 hupd
    exact ⟨s2, hfin, hlast, hfirst⟩

/-- Witness for C1: a series whose single bar is dated day 100 rejects a
refresh dated day 99, leaving the file unchanged. -/
theorem save_guards_monotone_witness :
    save_ticker_data ⟨FileState.content [mkBar 100], false⟩ [mkBar 99] true =
      ("protected", ⟨FileState.content [mkBar 100], false⟩) :=
  (save_guards_monotone [mkBar 100] false (by decide)).1 [mkBar 99] true
    (by decide) (Or.inl (by decide))

/-- Claim C2: with the regression and window-shift guards passing, a
refresh with fewer than `len(old) - 10` rows returns "protected" with the
file untouched; and whatever the outcome of a call, the persisted row
count afterwards is at least its previous value minus 10. -/
theorem save_shrinkage_guard (old data : Series) (tmp writeOk : Bool)
    (h1 : old ≠ []) (h2 : data ≠ []) :
    (lastDate old ≤ lastDate data → firstDate data ≤ firstDate old →
      (data.length : Int) < (old.length : Int) - 10 →
      save_ticker_data ⟨FileState.content old, tmp⟩ data writeOk =
        ("protected", ⟨FileState.content old, tmp⟩)) ∧
    (∀ s2, ((save_ticker_data ⟨FileState.content old, tmp⟩ data writeOk).2).final =
        FileState.content s2 → (old.length : Int) - 10 ≤ (s2.length : Int)) := by
  constructor
  · intro hl hf hlen
    cases hacc : acceptsUpdate (FileState.content old) data with
    | true =>
      obtain ⟨-, -, hge⟩ := (acceptsUpdate_content_iff old data h1 h2).mp hacc
      omega
    | false =>
      unfold save_ticker_data
      simp [hacc]
  · intro s2 hs2
    obtain ⟨s2', hfin, -, -, -, hlen⟩ := save_step_mono old data tmp writeOk h1 h2
    rw [hfin] at hs2
    injection hs2 with he
    exact he ▸ hlen

/-- Witness for C2: a 13-row series dated days 0..12 rejects a 2-row
refresh covering the same date span (2 < 13 - 10). -/
theorem save_shrinkage_guard_witness :
    save_ticker_data ⟨FileState.content (mkSeries 13), false⟩ [mkBar 0, mkBar 12] true =
      ("protected", ⟨FileState.content (mkSeries 13), false⟩) :=
  (save_shrinkage_guard (mkSeries 13) [mkBar 0, mkBar 12] false true
    (by decide) (by decide)).1 (by decide) (by decide) (by decide)

/-- Claim C3: when the write attempt in the accepted path fails, the call
returns "error", the temporary artifact is removed, and the final path
still holds exactly what it held before (or is still absent). -/
theorem save_write_failure_clean (final : FileState) (tmp : Bool) (data : Series)
    (h : acceptsUpdate final data = true) :
    save_ticker_data ⟨final, tmp⟩ data false = ("error", ⟨final, false⟩) := by
  unfold save_ticker_data
  simp [h]

/-- Witness for C3: a failed write of a fresh 1-row series over an absent
file surfaces "error" and leaves no file and no temp artifact behind. -/
theorem save_write_failure_clean_witness :
    save_ticker_data ⟨FileState.absent, false⟩ [mkBar 1] false =
      ("error", ⟨FileState.absent, false⟩) :=
  save_write_failure_clean FileState.absent false [mkBar 1] rfl

/-- Claim C6: an existing but unreadable persisted file is treated as
absence — the three guards are skipped and the new series is written,
returning "saved". -/
theorem save_corrupt_treated_as_absent (data : Series) (tmp : Bool) :
    save_ticker_data ⟨FileState.corrupt, tmp⟩ data true =
      ("saved", ⟨FileState.content data, false⟩) := by
  unfold save_ticker_data acceptsUpdate
  simp

/-- Claim C7: re-saving the exact series already persisted is accepted as
a no-op "saved" (or "error" if the write fails), and in every case the
persisted content afterwards is still exactly that series — never a
"saved" with different content. -/
theorem save_idempotent (s : Series) (tmp writeOk : Bool) :
    save_ticker_data ⟨FileState.content s, tmp⟩ s writeOk =
      ((if writeOk then "saved" else "error"), ⟨FileState.content s, false⟩) := by
  have ha : acceptsUpdate (FileState.content s) s = true := by
    rcases eq_or_ne s [] with h | h
    · subst h; rfl
    · rw [acceptsUpdate_content_iff s s h h]
      exact ⟨le_refl _, le_refl _, by omega⟩
  unfold save_ticker_data
  cases writeOk <;> simp [ha]

/-- Claim C4: the resolver returns the scraped list and overwrites the
fallback cache exactly when the remote attempt succeeds with at least 400
symbols; on any remote failure it returns the fallback cache contents
without writing, and it raises precisely when the fallback is also
missing or empty. -/
theorem sp500_resolution (networkFail tableFound : Bool) (rows : List String)
    (cache : Option (List String)) :
    (networkFail = false ∧ tableFound = true ∧ 400 ≤ rows.length →
      get_sp500_tickers (fetch_sp500_tickers_from_wiki networkFail tableFound rows)
          cache = Except.ok (rows, some rows)) ∧
    (networkFail = true ∨ tableFound = false ∨ rows.length < 400 →
      fetch_sp500_tickers_from_wiki networkFail tableFound rows = none ∧
      (load_fallback_tickers cache ≠ [] →
        get_sp500_tickers none cache =
          Except.ok (load_fallback_tickers cache, cache)) ∧
      (load_fallback_tickers cache = [] →
        get_sp500_tickers none cache =
          Except.error "Nelze ziskat seznam tickeru")) := by
  constructor
  · rintro ⟨hn, ht, hlen⟩
    subst hn; subst ht
    obtain ⟨r, rs, rfl⟩ : ∃ r rs, rows = r :: rs := by
      cases rows with
      | nil => simp at hlen
      | cons r rs => exact ⟨r, rs, rfl⟩
    have hfetch : fetch_sp500_tickers_from_wiki false true (r :: rs) =
        some (r :: rs) := by
      unfold fetch_sp500_tickers_from_wiki
      simp only [Bool.false_eq_true, if_false, Bool.not_true,
        if_neg (by omega : ¬ (r :: rs).length < 400)]
    rw [hfetch]
    rfl
  · intro hfail
    have hfetch : fetch_sp500_tickers_from_wiki networkFail tableFound rows = none := by
      unfold fetch_sp500_tickers_from_wiki
      rcases hfail with h | h | h <;> split_ifs <;> simp_all
    refine ⟨hfetch, ?_, ?_⟩
    · intro hfb
      unfold get_sp500_tickers
      cases hcl : load_fallback_tickers cache with
      | nil => exact absurd hcl hfb
      | cons f fs => simp [hcl]
    · intro hfb
      unfold get_sp500_tickers
      simp [hfb]

/-- Witness for C4: with a working network, a found table and 400 scraped
symbols, the resolver returns them and rewrites the (here missing)
fallback cache with exactly that list. -/
theorem sp500_resolution_witness :
    get_sp500_tickers
        (fetch_sp500_tickers_from_wiki false true (List.replicate 400 "A")) none =
      Except.ok (List.replicate 400 "A", some (List.replicate 400 "A")) :=
  (sp500_resolution false true (List.replicate 400 "A") none).1
    ⟨rfl, rfl, by rw [List.length_replicate]⟩

/-- Claim C5 (code bug): a symbol whose fetch returns zero rows is tallied
in `failed`, not `empty` — `download_ticker_data` maps an empty table to
`None`, so the orchestrator's `empty` branch is unreachable and the
`empty` counter stays 0; a raised fetch error is likewise tallied in
`failed`, indistinguishably. -/
theorem empty_fetch_tallied_as_failed :
    download_all_tickers [⟨FetchRaw.rows [], ⟨FileState.absent, false⟩, true⟩] =
      ⟨1, 0, 0, 1, 0⟩ ∧
    download_all_tickers [⟨FetchRaw.err, ⟨FileState.absent, false⟩, true⟩] =
      ⟨1, 0, 0, 1, 0⟩ :=
  ⟨rfl, rfl⟩

/-- Claim C8: the run's coverage statistics satisfy
`effective = saved + protected` and `coverage_pct = effective/total*100`,
with a zero total yielding 0% instead of a division error. -/
theorem coverage_arithmetic (worlds : List SymWorld) :
    effective_ok (download_all_tickers worlds) =
      (download_all_tickers worlds).success +
        (download_all_tickers worlds).protected_ ∧
    ((download_all_tickers worlds).total = 0 →
      coverage_pct (download_all_tickers worlds) = 0) ∧
    (0 < (download_all_tickers worlds).total →
      coverage_pct (download_all_tickers worlds) =
        (effective_ok (download_all_tickers worlds) : ℚ) /
          ((download_all_tickers worlds).total : ℚ) * 100) := by
  refine ⟨rfl, ?_, ?_⟩
  · intro h
    simp [coverage_pct, h]
  · intro h
    simp [coverage_pct, h]

/-- Witness for C8: an empty universe has total 0 and a defined coverage
of 0%. -/
theorem coverage_arithmetic_witness : coverage_pct (download_all_tickers []) = 0 :=
  (coverage_arithmetic []).2.1 rfl

/-- Claim C9 (counterexample): the public-to-feed mapping is not
reversible — the distinct public symbols "BRK.B" and "BRK-B" share the
feed form "BRK-B". -/
theorem sanitize_ticker_not_injective :
    sanitize_ticker "BRK.B" = sanitize_ticker "BRK-B" ∧ "BRK.B" ≠ "BRK-B" :=
  ⟨rfl, by decide⟩

/-- Claim C9 (amended): the public-to-feed mapping is deterministic, and
on public symbols containing no hyphen it is injective, so there the
public form is recoverable from the feed form. -/
theorem sanitize_ticker_injective_on_hyphen_free (a b : String)
    (ha : ∀ c ∈ a.data, c ≠ '-') (hb : ∀ c ∈ b.data, c ≠ '-')
    (h : sanitize_ticker a = sanitize_ticker b) : a = b := by
  unfold sanitize_ticker at h
  have hdata : a.data.map (fun c => if c = '.' then '-' else c) =
      b.data.map (fun c => if c = '.' then '-' else c) := congrArg String.data h
  exact congrArg String.mk (map_dot_char_inj a.data b.data ha hb hdata)

/-- Witness for C9 (amended): applied to the hyphen-free symbol "BRK.B"
against itself. -/
theorem sanitize_ticker_injective_witness : "BRK.B" = "BRK.B" :=
  sanitize_ticker_injective_on_hyphen_free "BRK.B" "BRK.B" (by decide) (by decide) rfl

/-- Claim C10: every processed symbol lands in exactly one of the four
outcome counters, so `success + protected + empty + failed = total`, and
`total` is the size of the universe. -/
theorem download_stats_partition (worlds : List SymWorld) :
    (download_all_tickers worlds).success +
        (download_all_tickers worlds).protected_ +
        (download_all_tickers worlds).empty +
        (download_all_tickers worlds).failed =
      (download_all_tickers worlds).total ∧
    (download_all_tickers worlds).total = worlds.length := by
  obtain ⟨h1, h2⟩ := foldl_tally worlds ⟨worlds.length, 0, 0, 0, 0⟩
  unfold download_all_tickers
  refine ⟨?_, h2⟩
  show countersSum (worlds.foldl tallyOne ⟨worlds.length, 0, 0, 0, 0⟩) = _
  rw [h1, h2]
  simp [countersSum]

end MarketBreadth
